import Mathlib

/-!
Shallow embedding of the parameter override engine of `mayo` (file
`src/mayo/override.py`), together with proofs about its behaviour.

Modelling conventions:
* Python/numpy floats are modelled by `ℚ`; parameter tensors by `List ℚ`
  (every operation involved is elementwise or a full reduction).
* `round` (Python `round` / `np.round` / `tf.round`) rounds half to even,
  modelled by `roundHalfEven`.
* Python exceptions are modelled by `Except PyError`.
-/

namespace Mayo

/-- Python exceptions that the embedded code can raise. -/
inductive PyError where
  | typeError
  | attributeError
  | overrideNotApplied
  | valueError
deriving DecidableEq, Repr

/-- An operand of the representation dispatcher: a constant scalar
(`bool`/`int`/`float`) or a dense numpy array.  (The third, symbolic-tensor
kind builds deferred graph nodes and is outside this value-level model.) -/
inductive Operand where
  | const : ℚ → Operand
  | arr : List ℚ → Operand
deriving DecidableEq, Repr

/-- Embeds `_sum` from `override.py`: raises `TypeError` on a constant scalar,
returns `np.sum(value)` on an array. -/
def dispatchSum : Operand → Except PyError ℚ
  | .const _ => .error .typeError
  | .arr l => .ok l.sum

/-- Embeds `_count` from `override.py`: raises `TypeError` on a constant scalar,
returns `value.size` on an array. -/
def dispatchCount : Operand → Except PyError ℕ
  | .const _ => .error .typeError
  | .arr l => .ok l.length

/-- Round half to even on `ℚ`, the rounding used by Python `round`,
`np.round` and `tf.round` (the backends of `_round` in `override.py`). -/
def roundHalfEven (x : ℚ) : ℤ :=
  if x - ⌊x⌋ < 1 / 2 then ⌊x⌋
  else if 1 / 2 < x - ⌊x⌋ then ⌊x⌋ + 1
  else if ⌊x⌋ % 2 = 0 then ⌊x⌋ else ⌊x⌋ + 1

/-- Embeds `FixedPointQuantizer._quantize` (value path, width set to `w`):
shift by `2^point`, round, clip to `[-2^(w-1), 2^(w-1)-1]`, shift back.
Elementwise on tensors, so stated on one scalar. -/
def quantizeValue (w : ℕ) (point : ℤ) (v : ℚ) : ℚ :=
  let shift : ℚ := 2 ^ point
  let scaled := v * shift
  let rounded : ℚ := (roundHalfEven scaled : ℤ)
  let maxValue : ℚ := 2 ^ (w - 1)
  let clipped := min (max rounded (-maxValue)) (maxValue - 1)
  clipped / shift

/-- Embeds `FixedPointQuantizer._quantize` (value path) with the `width` field as
stored on the object: `None` or an integer.  With `width = None` the Python
expression `2 ** (self.width - 1)` raises `TypeError` (after shifting and
rounding, before any clipping). -/
def quantize (width : Option ℕ) (point : ℤ) (v : ℚ) : Except PyError ℚ :=
  match width with
  | none => .error .typeError
  | some w => .ok (quantizeValue w point v)

/-- The overflow predicate of `_quantize` with `compute_overflow_rate=True`:
after shifting and rounding, the element lies outside
`[-2^(w-1), 2^(w-1)-1]`. -/
def overflows (w : ℕ) (point : ℤ) (v : ℚ) : Bool :=
  let shift : ℚ := 2 ^ point
  let rounded : ℚ := (roundHalfEven (v * shift) : ℤ)
  let maxValue : ℚ := 2 ^ (w - 1)
  decide (rounded < -maxValue ∨ maxValue - 1 < rounded)

/-- Embeds `_quantize(..., compute_overflow_rate=True)`:
`sum(cast(overflows, int)) / count(overflows)`. -/
def overflowRate (w : ℕ) (point : ℤ) (vs : List ℚ) : ℚ :=
  (vs.countP (overflows w point) : ℚ) / (vs.length : ℚ)

/-- Embeds `DynamicFixedPointQuantizer._update_policy`: starts from
`p = self._init_point` (which is `width - 1`), computes the overflow rate at
`p`, and moves `p` one step. -/
def updatePolicy (width : ℕ) (overflowRateBound : ℚ) (tensor : List ℚ) : ℤ :=
  let p : ℤ := (width : ℤ) - 1
  let rate := overflowRate width p tensor
  if overflowRateBound < rate then p - 1
  else if 2 * rate ≤ overflowRateBound then p + 1
  else p

/-- Embeds `DynamicFixedPointQuantizer._update`: assigns the result of
`_update_policy(session.run(self.before))` to the `point` variable.  The old
value of `point` is an argument only to exhibit that the code ignores it. -/
def dynamicUpdatePoint (width : ℕ) (overflowRateBound : ℚ) (_oldPoint : ℤ)
    (tensor : List ℚ) : ℤ :=
  updatePolicy width overflowRateBound tensor

/-- Update step as the spec's words describe it (for comparison with
`dynamicUpdatePoint`): the overflow rate is evaluated at the *current*
point, and the point moves one step from its *current* value. -/
def specUpdatePointAtCurrent (width : ℕ) (overflowRateBound : ℚ)
    (oldPoint : ℤ) (tensor : List ℚ) : ℤ :=
  let rate := overflowRate width oldPoint tensor
  if overflowRateBound < rate then oldPoint - 1
  else if 2 * rate ≤ overflowRateBound then oldPoint + 1
  else oldPoint

/-- The spec's wording of the fixed-point transform, for comparison with
`quantizeValue`: round to an integer, clip the integer to
`[-2^(w-1), 2^(w-1)-1]`, then divide by `2^point`. -/
def quantizeSpecValue (w : ℕ) (point : ℤ) (v : ℚ) : ℚ :=
  ((min (max (roundHalfEven (v * 2 ^ point)) (-(2 ^ (w - 1) : ℤ)))
      ((2 ^ (w - 1) : ℤ) - 1) : ℤ) : ℚ) / 2 ^ point

/-- Embeds `_abs` applied elementwise to a tensor. -/
def absList (vs : List ℚ) : List ℚ :=
  vs.map (fun v => |v|)

/-- Arithmetic mean of a tensor (the `mean` of `tf.nn.moments` over all
axes). -/
def listMean (vs : List ℚ) : ℚ :=
  vs.sum / (vs.length : ℚ)

/-- Population variance of a tensor (the `variance` of `tf.nn.moments` over
all axes). -/
def listVariance (vs : List ℚ) : ℚ :=
  listMean (vs.map (fun v => (v - listMean vs) ^ 2))

/-- Embeds `MeanStdPruner._threshold`: `mean + alpha * sqrt(var)` of `|tensor|`,
with `mean`, `var` from `tf.nn.moments`.  `sqrt` has no exact rational
form, so the threshold is characterised relationally: `s` is the exact
nonnegative square root of the variance. -/
def IsThreshold (alpha : ℚ) (vs : List ℚ) (t : ℚ) : Prop :=
  ∃ s : ℚ, 0 ≤ s ∧ s * s = listVariance (absList vs) ∧
    t = listMean (absList vs) + alpha * s

/-- Embeds `DynamicNetworkSurgeryPruner._updated_mask` given the threshold `t`
computed by `_threshold`:
`on_mask = |var| > on_factor*t`; `mask = mask OR on_mask`;
`off_mask = |var| > off_factor*t`; result `mask AND off_mask`. -/
def dnsUpdatedMask (onFactor offFactor t : ℚ) (var : List ℚ)
    (mask : List Bool) : List Bool :=
  let onMask := var.map (fun v => decide (onFactor * t < |v|))
  let mask1 := List.zipWith or mask onMask
  let offMask := var.map (fun v => decide (offFactor * t < |v|))
  List.zipWith and mask1 offMask

/-- The state of a `BaseOverrider` instance.  `underscoreBefore` and
`underscoreAfter` stand for the attributes `_before` and `_after` read by
`assign`; no method of the class ever assigns them, so they are `none` in
every reachable state. -/
structure OverriderState where
  shouldUpdate : Bool
  applied : Bool
  name : Option String
  before : Option (List ℚ)
  after : Option (List ℚ)
  underscoreBefore : Option (List ℚ)
  underscoreAfter : Option (List ℚ)
deriving DecidableEq, Repr

/-- Embeds `BaseOverrider.__init__(should_update)`: `name = None`, no `_applied`
attribute yet (`getattr` defaults it to `False`). -/
def overriderInit (shouldUpdate : Bool) : OverriderState :=
  { shouldUpdate := shouldUpdate
    applied := false
    name := none
    before := none
    after := none
    underscoreBefore := none
    underscoreAfter := none }

/-- Embeds `BaseOverrider.apply`: sets `_applied`, `name`, `before`, and
`after = self._apply(tracking_getter, value)`.  The subclass transform
`_apply` is the parameter `transform`; `nm` is `value.op.name`. -/
def overriderApply (transform : List ℚ → List ℚ) (nm : String)
    (s : OverriderState) (value : List ℚ) : OverriderState :=
  { s with
    applied := true
    name := some nm
    before := some value
    after := some (transform value) }

/-- Embeds `BaseOverrider.update`: returns silently when `should_update` is false;
raises `OverrideNotAppliedError` when `apply` has not run; otherwise runs
the subclass `_update` (the parameter `internalUpdate`). -/
def overriderUpdate (internalUpdate : OverriderState → OverriderState)
    (s : OverriderState) : Except PyError OverriderState :=
  if !s.shouldUpdate then .ok s
  else if !s.applied then .error .overrideNotApplied
  else .ok (internalUpdate s)

/-- Embeds `BaseOverrider.assign`: runs `tf.assign(self._before, self._after)`.
Reading the attribute `self._before` (never assigned anywhere in the class)
raises `AttributeError`; on success it would return the committed value. -/
def overriderAssign (s : OverriderState) : Except PyError (List ℚ) :=
  match s.underscoreBefore with
  | none => .error .attributeError
  | some _ =>
    match s.underscoreAfter with
    | none => .error .attributeError
    | some a => .ok a

/-! ### Helper lemmas -/

theorem roundHalfEven_intCast (n : ℤ) : roundHalfEven (n : ℚ) = n := by
  unfold roundHalfEven
  rw [Int.floor_intCast]
  norm_num

theorem roundHalfEven_le (x : ℚ) : (roundHalfEven x : ℚ) ≤ x + 1 / 2 := by
  have hfl := Int.floor_le x
  have hlt := Int.lt_floor_add_one x
  unfold roundHalfEven
  split_ifs with h1 h2 h3 <;> push_cast <;> linarith

theorem le_roundHalfEven (x : ℚ) : x - 1 / 2 ≤ (roundHalfEven x : ℚ) := by
  have hfl := Int.floor_le x
  have hlt := Int.lt_floor_add_one x
  unfold roundHalfEven
  split_ifs with h1 h2 h3 <;> push_cast <;> linarith

/-! ### Claim theorems -/

/-- C9: `_sum` and `_count` raise `TypeError` on every constant scalar
operand, and succeed on every array operand (returning the element sum and
the element count respectively). -/
theorem c9_sum_count_scalar_vs_array :
    (∀ q : ℚ, dispatchSum (.const q) = .error .typeError ∧
      dispatchCount (.const q) = .error .typeError) ∧
    (∀ l : List ℚ, dispatchSum (.arr l) = .ok l.sum ∧
      dispatchCount (.arr l) = .ok l.length) :=
  ⟨fun _ => ⟨rfl, rfl⟩, fun _ => ⟨rfl, rfl⟩⟩

/-- C4 (code bug): with `width = None` the fixed-point quantizer does not
skip clipping — the Python expression `2 ** (self.width - 1)` raises
`TypeError`, so `_quantize` fails on every input instead of returning the
unclipped `round(value * 2^point) / 2^point`.  Shown here at the claim's
own kind of input, e.g. `point = 2`, `value = 1.3`, and in general. -/
theorem c4_quantize_unset_width_raises_type_error :
    (∀ (point : ℤ) (v : ℚ), quantize none point v = .error .typeError) ∧
    quantize none 2 (13 / 10) = .error .typeError :=
  ⟨fun _ _ => rfl, rfl⟩

/-- C3 counterexample: an override freshly constructed with
`should_update=False` (a legal fresh construction) does not raise
`OverrideNotAppliedError` from `update` — the call returns silently. -/
theorem c3_fresh_nonupdating_no_error_cex :
    overriderUpdate id (overriderInit false) = .ok (overriderInit false) :=
  rfl

/-- C3 (amended): every override freshly constructed with the constructor
default `should_update=True`, on which `apply` has never been called,
raises `OverrideNotAppliedError` from `update`, whatever the subclass
`_update` is. -/
theorem c3_update_before_apply_raises
    (internalUpdate : OverriderState → OverriderState) :
    overriderUpdate internalUpdate (overriderInit true) =
      .error .overrideNotApplied :=
  rfl

/-- C10: for every override state with `should_update` false, `update`
returns the state unchanged and raises nothing, whatever the subclass
`_update` is — in particular for unapplied states, since the
`should_update` test precedes the `_applied` test. -/
theorem c10_nonupdating_update_noop
    (internalUpdate : OverriderState → OverriderState) (s : OverriderState)
    (h : s.shouldUpdate = false) :
    overriderUpdate internalUpdate s = .ok s := by
  unfold overriderUpdate
  rw [h]
  rfl

/-- C10 witness: the unapplied override constructed with
`should_update=False` is returned unchanged by `update`. -/
theorem c10_nonupdating_update_noop_witness :
    (overriderInit false).shouldUpdate = false ∧
    overriderUpdate (fun s => { s with applied := true })
      (overriderInit false) = .ok (overriderInit false) :=
  ⟨rfl, c10_nonupdating_update_noop (fun s => { s with applied := true })
    (overriderInit false) rfl⟩

/-- C2 (code bug): `assign` never commits `after` into the raw parameter
storage — it reads the attributes `self._before` and `self._after`, which
no code path ever assigns (`apply` sets `self.before` and `self.after`), so
`assign` raises `AttributeError` on every override on which `apply` has
been called. -/
theorem c2_assign_raises_attribute_error
    (transform : List ℚ → List ℚ) (nm : String) (shouldUpdate : Bool)
    (value : List ℚ) :
    overriderAssign
      (overriderApply transform nm (overriderInit shouldUpdate) value) =
      .error .attributeError :=
  rfl

/-- C5: for every raw value the fixed-point quantizer with a set width
computes shift, round, clip to `[-2^(w-1), 2^(w-1)-1]`, unshift — stated
as agreement with the integer-level clip formula — and on Scenario B
(point 2, width 4, raw value 1.3) yields 1.25. -/
theorem c5_fixed_quantize_transform :
    (∀ (w : ℕ) (p : ℤ) (v : ℚ), quantizeValue w p v = quantizeSpecValue w p v) ∧
    quantizeValue 4 2 (13 / 10) = 5 / 4 := by
  constructor
  · intro w p v
    simp only [quantizeValue, quantizeSpecValue]
    push_cast
    rfl
  · norm_num [quantizeValue, roundHalfEven, min_def, max_def]

/-- C6: quantization is idempotent on values whose shifted-and-rounded
representation is inside `[-2^(w-1), 2^(w-1)-1]`. -/
theorem c6_quantize_idempotent_in_range (w : ℕ) (p : ℤ) (v : ℚ)
    (hlo : -(2 ^ (w - 1) : ℤ) ≤ roundHalfEven (v * 2 ^ p))
    (hhi : roundHalfEven (v * 2 ^ p) ≤ 2 ^ (w - 1) - 1) :
    quantizeValue w p (quantizeValue w p v) = quantizeValue w p v := by
  have h2 : (2 : ℚ) ^ p ≠ 0 := zpow_ne_zero _ (by norm_num)
  have hlo' : -((2 : ℚ) ^ (w - 1)) ≤ ((roundHalfEven (v * 2 ^ p) : ℤ) : ℚ) := by
    have : ((-(2 ^ (w - 1)) : ℤ) : ℚ) ≤ ((roundHalfEven (v * 2 ^ p) : ℤ) : ℚ) := by
      exact_mod_cast hlo
    push_cast at this
    linarith
  have hhi' : ((roundHalfEven (v * 2 ^ p) : ℤ) : ℚ) ≤ (2 : ℚ) ^ (w - 1) - 1 := by
    have : ((roundHalfEven (v * 2 ^ p) : ℤ) : ℚ) ≤ ((2 ^ (w - 1) - 1 : ℤ) : ℚ) := by
      exact_mod_cast hhi
    push_cast at this
    linarith
  have hq : quantizeValue w p v = ((roundHalfEven (v * 2 ^ p) : ℤ) : ℚ) / 2 ^ p := by
    simp only [quantizeValue]
    rw [max_eq_left hlo', min_eq_left hhi']
  rw [hq]
  simp only [quantizeValue]
  rw [div_mul_cancel₀ _ h2, roundHalfEven_intCast,
    max_eq_left hlo', min_eq_left hhi']

/-- C6 witness: the in-range hypothesis and the idempotence conclusion at
width 4, point 2, raw value 1.3. -/
theorem c6_quantize_idempotent_in_range_witness :
    (-(2 ^ (4 - 1) : ℤ) ≤ roundHalfEven (13 / 10 * 2 ^ (2 : ℤ)) ∧
      roundHalfEven (13 / 10 * 2 ^ (2 : ℤ)) ≤ 2 ^ (4 - 1) - 1) ∧
    quantizeValue 4 2 (quantizeValue 4 2 (13 / 10)) =
      quantizeValue 4 2 (13 / 10) :=
  ⟨⟨by norm_num [roundHalfEven], by norm_num [roundHalfEven]⟩,
    c6_quantize_idempotent_in_range 4 2 (13 / 10)
      (by norm_num [roundHalfEven]) (by norm_num [roundHalfEven])⟩

theorem overflows_mono_step (w : ℕ) (p : ℤ) (v : ℚ)
    (h : overflows w p v = true) : overflows w (p + 1) v = true := by
  simp only [overflows, decide_eq_true_eq] at h ⊢
  have hzp : v * 2 ^ (p + 1) = v * 2 ^ p * 2 := by
    rw [zpow_add_one₀ (two_ne_zero : (2 : ℚ) ≠ 0)]
    ring
  rw [hzp]
  have hMz : (0 : ℤ) < 2 ^ (w - 1) := pow_pos (by norm_num) _
  have hup := roundHalfEven_le (v * 2 ^ p)
  have hdown := le_roundHalfEven (v * 2 ^ p)
  have hup2 := roundHalfEven_le (v * 2 ^ p * 2)
  have hdown2 := le_roundHalfEven (v * 2 ^ p * 2)
  rcases h with h | h
  · left
    have hz1 : roundHalfEven (v * 2 ^ p) < -(2 ^ (w - 1)) := by
      have : ((roundHalfEven (v * 2 ^ p) : ℤ) : ℚ) < ((-(2 ^ (w - 1)) : ℤ) : ℚ) := by
        push_cast
        linarith
      exact_mod_cast this
    have hz2 : ((roundHalfEven (v * 2 ^ p) : ℤ) : ℚ) ≤
        ((-(2 ^ (w - 1)) - 1 : ℤ) : ℚ) := by
      have : roundHalfEven (v * 2 ^ p) ≤ -(2 ^ (w - 1)) - 1 := by omega
      exact_mod_cast this
    push_cast at hz2
    have hr2 : roundHalfEven (v * 2 ^ p * 2) < -(2 ^ (w - 1)) * 2 := by
      have : ((roundHalfEven (v * 2 ^ p * 2) : ℤ) : ℚ) <
          ((-(2 ^ (w - 1)) * 2 : ℤ) : ℚ) := by
        push_cast
        linarith
      exact_mod_cast this
    have hfin : roundHalfEven (v * 2 ^ p * 2) < -(2 ^ (w - 1)) := by omega
    have : ((roundHalfEven (v * 2 ^ p * 2) : ℤ) : ℚ) <
        ((-(2 ^ (w - 1)) : ℤ) : ℚ) := by exact_mod_cast hfin
    push_cast at this
    linarith
  · right
    have hz1 : 2 ^ (w - 1) - 1 < roundHalfEven (v * 2 ^ p) := by
      have : ((2 ^ (w - 1) - 1 : ℤ) : ℚ) < ((roundHalfEven (v * 2 ^ p) : ℤ) : ℚ) := by
        push_cast
        linarith
      exact_mod_cast this
    have hz2 : ((2 ^ (w - 1) : ℤ) : ℚ) ≤ ((roundHalfEven (v * 2 ^ p) : ℤ) : ℚ) := by
      have : (2 ^ (w - 1) : ℤ) ≤ roundHalfEven (v * 2 ^ p) := by omega
      exact_mod_cast this
    push_cast at hz2
    have hr2 : 2 ^ (w - 1) * 2 - 2 < roundHalfEven (v * 2 ^ p * 2) := by
      have : ((2 ^ (w - 1) * 2 - 2 : ℤ) : ℚ) <
          ((roundHalfEven (v * 2 ^ p * 2) : ℤ) : ℚ) := by
        push_cast
        linarith
      exact_mod_cast this
    have hfin : (2 ^ (w - 1) - 1 : ℤ) < roundHalfEven (v * 2 ^ p * 2) := by omega
    have : ((2 ^ (w - 1) - 1 : ℤ) : ℚ) <
        ((roundHalfEven (v * 2 ^ p * 2) : ℤ) : ℚ) := by exact_mod_cast hfin
    push_cast at this
    linarith

theorem overflowRate_mono_step (w : ℕ) (p : ℤ) (vs : List ℚ) :
    overflowRate w p vs ≤ overflowRate w (p + 1) vs := by
  unfold overflowRate
  rcases eq_or_ne vs [] with rfl | h
  · simp
  · have hlen : (0 : ℚ) < vs.length := by
      have := List.length_pos.mpr h
      exact_mod_cast this
    have hcount : vs.countP (overflows w p) ≤ vs.countP (overflows w (p + 1)) :=
      List.countP_mono_left (fun x _ hx => overflows_mono_step w p x hx)
    have hcast : (vs.countP (overflows w p) : ℚ) ≤
        (vs.countP (overflows w (p + 1)) : ℚ) := by exact_mod_cast hcount
    exact div_le_div_of_nonneg_right hcast hlen.le

/-- C7: the overflow rate of a fixed tensor is monotone in `point`:
decreasing the point by one never increases the rate, increasing it by one
never decreases it. -/
theorem c7_overflow_rate_monotone_in_point (w : ℕ) (p : ℤ) (vs : List ℚ)
    (_hvs : vs ≠ []) :
    overflowRate w (p - 1) vs ≤ overflowRate w p vs ∧
    overflowRate w p vs ≤ overflowRate w (p + 1) vs := by
  constructor
  · have := overflowRate_mono_step w (p - 1) vs
    rwa [sub_add_cancel] at this
  · exact overflowRate_mono_step w p vs

/-- C7 witness: monotonicity at width 8, point 0, tensor `[1.0]`. -/
theorem c7_overflow_rate_monotone_in_point_witness :
    ([(1 : ℚ)] ≠ []) ∧
    (overflowRate 8 (0 - 1) [1] ≤ overflowRate 8 0 [1] ∧
      overflowRate 8 0 [1] ≤ overflowRate 8 (0 + 1) [1]) :=
  ⟨by simp, c7_overflow_rate_monotone_in_point 8 0 [1] (by simp)⟩

/-- C1 counterexample: with width 8, overflow_rate 0.01, *current* point 3
and raw tensor `[1.0]`, the overflow rate at the current point is 0, so the
claim requires incrementing the point from 3 to 4; but `_update` sets the
point to 6, because `_update_policy` restarts from `_init_point = 7` and
ignores the current point. -/
theorem c1_update_ignores_current_point_cex :
    dynamicUpdatePoint 8 (1 / 100) 3 [1] = 6 ∧
    specUpdatePointAtCurrent 8 (1 / 100) 3 [1] = 4 ∧
    dynamicUpdatePoint 8 (1 / 100) 3 [1] ≠
      specUpdatePointAtCurrent 8 (1 / 100) 3 [1] := by
  refine ⟨?_, ?_, ?_⟩ <;>
    norm_num [dynamicUpdatePoint, updatePolicy, specUpdatePointAtCurrent,
      overflowRate, overflows, roundHalfEven, List.countP_cons, List.countP_nil]

/-- C1 (amended): `update` evaluates the overflow rate at the *initial*
point `width - 1` and moves one step from that initial point — decrement
when `rate > overflow_rate`, increment when `2*rate ≤ overflow_rate`, else
unchanged — regardless of the current point value.  Scenario D (width 8,
overflow_rate 0.01, current point 7 = initial point, observed rate 0.05)
still sets the point to 6. -/
theorem c1_update_policy_from_init_point :
    (∀ (width : ℕ) (bound : ℚ) (oldPoint oldPoint' : ℤ) (tensor : List ℚ),
      (dynamicUpdatePoint width bound oldPoint tensor =
        (let p : ℤ := (width : ℤ) - 1
         let rate := overflowRate width p tensor
         if bound < rate then p - 1
         else if 2 * rate ≤ bound then p + 1
         else p)) ∧
      dynamicUpdatePoint width bound oldPoint tensor =
        dynamicUpdatePoint width bound oldPoint' tensor) ∧
    overflowRate 8 7 [1, 0, 0, 0, 0, 0, 0, 0, 0, 0, 0, 0, 0, 0, 0, 0, 0, 0, 0, 0] =
      5 / 100 ∧
    dynamicUpdatePoint 8 (1 / 100) 7
      [1, 0, 0, 0, 0, 0, 0, 0, 0, 0, 0, 0, 0, 0, 0, 0, 0, 0, 0, 0] = 6 := by
  refine ⟨fun _ _ _ _ _ => ⟨rfl, rfl⟩, ?_, ?_⟩ <;>
    norm_num [dynamicUpdatePoint, updatePolicy, overflowRate, overflows,
      roundHalfEven, List.countP_cons, List.countP_nil]

theorem dnsUpdatedMask_getD (onF offF t : ℚ) (vs : List ℚ)
    (mask : List Bool) (i : ℕ) (hlen : mask.length = vs.length)
    (hi : i < vs.length) :
    (dnsUpdatedMask onF offF t vs mask).getD i false =
      ((mask.getD i false || decide (onF * t < |vs.getD i 0|)) &&
        decide (offF * t < |vs.getD i 0|)) := by
  have h1 : i < mask.length := by rw [hlen]; exact hi
  have hlen2 : (dnsUpdatedMask onF offF t vs mask).length = vs.length := by
    simp [dnsUpdatedMask, hlen]
  rw [List.getD_eq_getElem?_getD, List.getElem?_eq_getElem (by rw [hlen2]; exact hi)]
  simp [dnsUpdatedMask, List.getD_eq_getElem?_getD,
    List.getElem?_eq_getElem h1, List.getElem?_eq_getElem hi]

/-- C8 counterexample: the claim's hypothesis `on_factor > off_factor`
alone does not make an on-mask element survive the same call.  With tensor
`[0, 2]` (mean of `|·|` is 1, std is 1), `alpha = -3` the threshold is
`-2`; with `on_factor = 1 > off_factor = -1`, element 0 satisfies the
on-mask condition `|0| > 1·(-2)` yet ends the call pruned. -/
theorem c8_on_mask_element_pruned_cex :
    IsThreshold (-3) [0, 2] (-2) ∧
    ((-1 : ℚ) < 1) ∧
    (1 : ℚ) * (-2) < |([(0 : ℚ), 2]).getD 0 0| ∧
    (dnsUpdatedMask 1 (-1) (-2) [0, 2] [false, false]).getD 0 false = false := by
  refine ⟨⟨1, by norm_num, ?_, ?_⟩, by norm_num, by norm_num, ?_⟩
  · norm_num [listVariance, listMean, absList]
  · norm_num [listVariance, listMean, absList]
  · norm_num [dnsUpdatedMask]

/-- C8 (amended): with `on_factor > off_factor > 0` and `threshold =
mean(|raw|) + alpha·std(|raw|)`, the updated mask is
`(old_mask OR |raw| > on_factor·threshold) AND (|raw| > off_factor·threshold)`
elementwise; an element set by the on-mask in an update call is kept by
that call, and an element with `|raw| ≤ off_factor·threshold` ends the
call pruned regardless of its prior mask state. -/
theorem c8_dns_mask_hysteresis (alpha onF offF t : ℚ) (vs : List ℚ)
    (mask : List Bool) (i : ℕ)
    (hlen : mask.length = vs.length) (hi : i < vs.length)
    (_ht : IsThreshold alpha vs t)
    (hon : offF < onF) (hoff : 0 < offF) :
    ((dnsUpdatedMask onF offF t vs mask).getD i false =
      ((mask.getD i false || decide (onF * t < |vs.getD i 0|)) &&
        decide (offF * t < |vs.getD i 0|))) ∧
    (onF * t < |vs.getD i 0| →
      (dnsUpdatedMask onF offF t vs mask).getD i false = true) ∧
    (|vs.getD i 0| ≤ offF * t →
      (dnsUpdatedMask onF offF t vs mask).getD i false = false) := by
  have hform := dnsUpdatedMask_getD onF offF t vs mask i hlen hi
  refine ⟨hform, ?_, ?_⟩
  · intro honElem
    have hoffElem : offF * t < |vs.getD i 0| := by
      rcases le_or_lt 0 t with h0 | h0
      · have : offF * t ≤ onF * t := mul_le_mul_of_nonneg_right hon.le h0
        linarith
      · have : offF * t < 0 := mul_neg_of_pos_of_neg hoff h0
        exact this.trans_le (abs_nonneg _)
    rw [hform]
    simp only [Bool.and_eq_true, Bool.or_eq_true, decide_eq_true_eq]
    exact ⟨Or.inr honElem, hoffElem⟩
  · intro hoffElem
    rw [hform, decide_eq_false (not_lt.mpr hoffElem), Bool.and_false]

/-- C8 witness: hypotheses and conclusion at `alpha = 1`, tensor `[0, 2]`
(threshold 2), `on_factor = 1.1`, `off_factor = 0.9`, old mask all-false,
element 1. -/
theorem c8_dns_mask_hysteresis_witness :
    ([false, false].length = [(0 : ℚ), 2].length) ∧
    (1 < [(0 : ℚ), 2].length) ∧
    IsThreshold 1 [0, 2] 2 ∧
    ((9 / 10 : ℚ) < 11 / 10) ∧ ((0 : ℚ) < 9 / 10) ∧
    (((dnsUpdatedMask (11 / 10) (9 / 10) 2 [0, 2] [false, false]).getD 1 false =
      (([false, false].getD 1 false ||
        decide ((11 / 10 : ℚ) * 2 < |([(0 : ℚ), 2]).getD 1 0|)) &&
        decide ((9 / 10 : ℚ) * 2 < |([(0 : ℚ), 2]).getD 1 0|))) ∧
    ((11 / 10 : ℚ) * 2 < |([(0 : ℚ), 2]).getD 1 0| →
      (dnsUpdatedMask (11 / 10) (9 / 10) 2 [0, 2] [false, false]).getD 1 false = true) ∧
    (|([(0 : ℚ), 2]).getD 1 0| ≤ (9 / 10 : ℚ) * 2 →
      (dnsUpdatedMask (11 / 10) (9 / 10) 2 [0, 2] [false, false]).getD 1 false = false)) :=
  ⟨rfl, by norm_num,
    ⟨1, by norm_num, by norm_num [listVariance, listMean, absList],
      by norm_num [listVariance, listMean, absList]⟩,
    by norm_num, by norm_num,
    c8_dns_mask_hysteresis 1 (11 / 10) (9 / 10) 2 [0, 2] [false, false] 1
      rfl (by norm_num)
      ⟨1, by norm_num, by norm_num [listVariance, listMean, absList],
        by norm_num [listVariance, listMean, absList]⟩
      (by norm_num) (by norm_num)⟩

end Mayo
